import Mathlib

/-!
Shallow embedding of `src/catalog/src/remote/manager.rs` (the remote catalog
manager of the repository): key codec, KV backend interface, the three provider
levels (`RemoteCatalogManager`, `RemoteCatalogProvider`, `RemoteSchemaProvider`)
and the bootstrap (`start` / `initiate_catalogs`) protocol.

Byte strings are modelled as `List Char` (`Str`).  The KV backend (an external
collaborator, specified in the design document only at its interface boundary)
is modelled as an in-memory association list with point get/set, prefix range
scan and delete-by-range.  The table engine is an oracle (a pair of functions
supplied by the environment).  All operations are sequential: the async layer
of the source blocks on each backend call, so one public operation is one
atomic step of the model.
-/

set_option autoImplicit false

namespace RemoteCatalog

/-- Byte strings, modelled as lists of characters. -/
abbrev Str := List Char

/-- Converts a Lean string literal to the `Str` representation. -/
def str (s : String) : Str := s.data

/-- Association-list lookup (models `HashMap::get`): first binding wins. -/
def alGet {α : Type} : List (Str × α) → Str → Option α
  | [], _ => none
  | (k, v) :: rest, key => if k = key then some v else alGet rest key

/-- Association-list insert-or-overwrite (models `HashMap::insert`). -/
def alPut {α : Type} : List (Str × α) → Str → α → List (Str × α)
  | [], key, v => [(key, v)]
  | (k, w) :: rest, key, v =>
    if k = key then (key, v) :: rest else (k, w) :: alPut rest key v

/-- Association-list removal returning the removed value
(models `HashMap::remove`). -/
def alTake {α : Type} : List (Str × α) → Str → Option α × List (Str × α)
  | [], _ => (none, [])
  | (k, w) :: rest, key =>
    if k = key then (some w, rest)
    else
      let r := alTake rest key
      (r.1, (k, w) :: r.2)

/-- Boolean test that `p` is a leading segment of `s` (byte-wise). -/
def strStarts : Str → Str → Bool
  | [], _ => true
  | _ :: _, [] => false
  | p :: ps, c :: cs => if p = c then strStarts ps cs else false

/-- Splits a byte string at every `'-'` delimiter (the delimiter of the key
codec, see the design document's key layout). -/
def splitDash : Str → List Str
  | [] => [[]]
  | c :: rest =>
    match splitDash rest with
    | [] => [[]]
    | g :: gs => if c = '-' then [] :: g :: gs else (c :: g) :: gs

/-- Decimal rendering of a natural number (models `format!("{}")` on an id). -/
def natToStr (n : Nat) : Str := (Nat.repr n).data

/-- Error kinds of `crate::error` that `manager.rs` can produce or forward. -/
inductive Error where
  | CatalogNotFound (catalog_name : Str)
  | SchemaNotFound (schema_info : Str)
  | TableExists (table : Str)
  | OpenTableFailed (table_info : Str)
  | CreateTableFailed (table_info : Str)
  | KeyDecodeError (raw : Str)
  | SerializationError
deriving DecidableEq, Repr

/-- Result of an operation that can also hit a failed `assert_eq!`
(a Rust panic), which is distinct from returning an `Error`. -/
inductive PRes (α : Type) where
  | ok (a : α)
  | err (e : Error)
  | panic
deriving DecidableEq, Repr

/-- CatalogKey = (catalog name, node id), `__c-{catalog_name}-{node_id}`. -/
structure CatalogKey where
  catalog_name : Str
  node_id : Str
deriving DecidableEq, Repr

/-- SchemaKey = (catalog, schema, node), `__s-{catalog}-{schema}-{node_id}`. -/
structure SchemaKey where
  catalog_name : Str
  schema_name : Str
  node_id : Str
deriving DecidableEq, Repr

/-- TableKey = (catalog, schema, table, node),
`__t-{catalog}-{schema}-{table}-{node_id}`. -/
structure TableKey where
  catalog_name : Str
  schema_name : Str
  table_name : Str
  node_id : Str
deriving DecidableEq, Repr

/-- Modelled from the spec: `build_catalog_prefix` of
`src/catalog/src/remote/helper.rs` (the helper module is not under `src/`);
the design document fixes the catalog scan range to the tag `__c-`. -/
def buildCatalogPfx : Str := str "__c-"

/-- Modelled from the spec: `build_schema_prefix`, range tag
`__s-{catalog_name}-`. -/
def buildSchemaPfx (catalog_name : Str) : Str :=
  str "__s-" ++ catalog_name ++ str "-"

/-- Modelled from the spec: `build_table_prefix`, range tag
`__t-{catalog_name}-{schema_name}-`. -/
def buildTablePfx (catalog_name schema_name : Str) : Str :=
  str "__t-" ++ catalog_name ++ str "-" ++ schema_name ++ str "-"

/-- Modelled from the spec: `CatalogKey::to_string` of the missing helper
module, layout `__c-{catalog_name}-{node_id}`. -/
def catalogKeyStr (k : CatalogKey) : Str :=
  str "__c-" ++ k.catalog_name ++ str "-" ++ k.node_id

/-- Modelled from the spec: `SchemaKey::to_string`,
layout `__s-{catalog_name}-{schema_name}-{node_id}`. -/
def schemaKeyStr (k : SchemaKey) : Str :=
  str "__s-" ++ k.catalog_name ++ str "-" ++ k.schema_name ++ str "-" ++ k.node_id

/-- Modelled from the spec: `TableKey::to_string`,
layout `__t-{catalog_name}-{schema_name}-{table_name}-{node_id}`. -/
def tableKeyStr (k : TableKey) : Str :=
  str "__t-" ++ k.catalog_name ++ str "-" ++ k.schema_name ++ str "-" ++
    k.table_name ++ str "-" ++ k.node_id

/-- Modelled from the spec: `CatalogKey::parse`; decoding rejects malformed
keys with a distinguishable error, never silently defaulting. -/
def catalogKeyParse (s : Str) : Except Error CatalogKey :=
  match splitDash s with
  | [tag, c, n] =>
    if tag = str "__c" then .ok ⟨c, n⟩ else .error (.KeyDecodeError s)
  | _ => .error (.KeyDecodeError s)

/-- Modelled from the spec: `SchemaKey::parse`. -/
def schemaKeyParse (s : Str) : Except Error SchemaKey :=
  match splitDash s with
  | [tag, c, sc, n] =>
    if tag = str "__s" then .ok ⟨c, sc, n⟩ else .error (.KeyDecodeError s)
  | _ => .error (.KeyDecodeError s)

/-- Modelled from the spec: `TableKey::parse`. -/
def tableKeyParse (s : Str) : Except Error TableKey :=
  match splitDash s with
  | [tag, c, sc, t, n] =>
    if tag = str "__t" then .ok ⟨c, sc, t, n⟩ else .error (.KeyDecodeError s)
  | _ => .error (.KeyDecodeError s)

/-- Opaque table metadata payload carried by a `TableValue` (logical schema,
primary-key column indices and engine options, per the design document). -/
structure TableMeta where
  schemaDef : Str
  primaryKeyIndices : List Nat
  options : List (Str × Str)
deriving DecidableEq, Repr

/-- Serialized values stored in the KV backend.  The wire encoding is an
opaque round-trippable serialize/deserialize contract in the design document,
so it is modelled as a tagged sum: markers for catalogs/schemas, a payload for
tables. -/
inductive BytesV where
  | catalogMarker
  | schemaMarker
  | tableVal (id : Nat) (meta : TableMeta)
deriving DecidableEq, Repr

/-- TableValue = (table id, metadata). -/
structure TableValue where
  id : Nat
  meta : TableMeta
deriving DecidableEq, Repr

/-- Modelled from the spec: `TableValue::parse`; deserializing bytes that are
not a table payload fails. -/
def tableValueParse (v : BytesV) : Except Error TableValue :=
  match v with
  | .tableVal id meta => .ok ⟨id, meta⟩
  | _ => .error .SerializationError

/-- The KV backend's visible state: its keyspace. -/
abbrev Backend := List (Str × BytesV)

/-- `KvBackend::get`. -/
def kvGet (b : Backend) (k : Str) : Option BytesV := alGet b k

/-- `KvBackend::set` (unconditional overwrite; the source uses no
conditional-write variant). -/
def kvSet (b : Backend) (k : Str) (v : BytesV) : Backend := alPut b k v

/-- `KvBackend::range`: all pairs whose key starts with the requested range
tag; each call opens a fresh scan of the current state. -/
def kvRange (b : Backend) (p : Str) : List (Str × BytesV) :=
  b.filter (fun kv => strStarts p kv.1)

/-- `KvBackend::delete_range(key, [])`: per the interface contract, deletion
of a single key expressed as the range covering exactly that key. -/
def kvDeleteRangeKey (b : Backend) (k : Str) : Backend :=
  (alTake b k).2

/-- A live table handle (`TableRef`).  `tableId` and `meta` are what
`table.table_info()` reports (`ident.table_id` and `meta`); `tag` is the
identity of the `Arc`, letting two handles with equal metadata differ. -/
structure TableRef where
  tableId : Nat
  meta : TableMeta
  tag : Nat
deriving DecidableEq, Repr

/-- State of a `RemoteSchemaProvider`: identity plus the local name-keyed
table-handle map (`tables: RwLock<HashMap<String, TableRef>>`). -/
structure SchemaState where
  catalog_name : Str
  schema_name : Str
  node_id : Str
  tables : List (Str × TableRef)
deriving DecidableEq, Repr

/-- `RemoteSchemaProvider::table_key`. -/
def SchemaState.tableKey (s : SchemaState) (name : Str) : TableKey :=
  ⟨s.catalog_name, s.schema_name, name, s.node_id⟩

/-- `RemoteSchemaProvider::table_exist`: existence is decided solely by the
presence of the table key in the KV backend. -/
def SchemaState.table_exist (s : SchemaState) (b : Backend) (name : Str) :
    Except Error Bool :=
  .ok (kvGet b (tableKeyStr (s.tableKey name))).isSome

/-- `RemoteSchemaProvider::table`: confirm remote existence, then serve
whatever the local map holds for the name. -/
def SchemaState.table (s : SchemaState) (b : Backend) (name : Str) :
    Except Error (Option TableRef) :=
  match kvGet b (tableKeyStr (s.tableKey name)) with
  | none => .ok none
  | some _ => .ok (alGet s.tables name)

/-- `RemoteSchemaProvider::register_table`: derive the `TableValue` from the
handle's own `table_info()`, write it through to the backend, insert the
handle into the local map under `name`.  Note the source computes `prev` by
looking the name-keyed local map up under the full encoded key string
(`self.tables.read().await.get(&key)`), not under the bare name. -/
def SchemaState.register_table (s : SchemaState) (b : Backend) (name : Str)
    (table : TableRef) :
    Except Error (Option TableRef) × SchemaState × Backend :=
  let key := tableKeyStr (s.tableKey name)
  let prev :=
    match kvGet b key with
    | none => none
    | some _ => alGet s.tables key
  let b1 := kvSet b key (.tableVal table.tableId table.meta)
  (.ok prev, { s with tables := alPut s.tables name table }, b1)

/-- `RemoteSchemaProvider::deregister_table`: delete the key range from the
backend, then remove from the local map.  Note the source removes from the
name-keyed map under the full encoded key string (`tables.remove(&key)`),
not under the bare name. -/
def SchemaState.deregister_table (s : SchemaState) (b : Backend) (name : Str) :
    Except Error (Option TableRef) × SchemaState × Backend :=
  let key := tableKeyStr (s.tableKey name)
  let b1 := kvDeleteRangeKey b key
  let r := alTake s.tables key
  (.ok r.1, { s with tables := r.2 }, b1)

/-- Inserts a name into the de-duplicating accumulator (models the
`HashSet<String>` the listing operations collect into). -/
def setInsert (l : List Str) (x : Str) : List Str :=
  if x ∈ l then l else l ++ [x]

/-- Scan loop of `RemoteSchemaProvider::table_names`: parse each scanned key,
`assert_eq!` the schema then the catalog name against the provider's own,
keep names whose node identity equals the provider's. -/
def tableNamesGo (s : SchemaState) :
    List (Str × BytesV) → List Str → PRes (List Str)
  | [], acc => .ok acc
  | (k, _) :: rest, acc =>
    match tableKeyParse k with
    | .error e => .err e
    | .ok tk =>
      if s.schema_name = tk.schema_name then
        if s.catalog_name = tk.catalog_name then
          tableNamesGo s rest
            (if tk.node_id = s.node_id then setInsert acc tk.table_name else acc)
        else .panic
      else .panic

/-- `RemoteSchemaProvider::table_names`. -/
def SchemaState.table_names (s : SchemaState) (b : Backend) : PRes (List Str) :=
  tableNamesGo s (kvRange b (buildTablePfx s.catalog_name s.schema_name)) []

/-- State of a `RemoteCatalogProvider`: identity plus the local name-keyed
schema-provider map. -/
structure CatalogState where
  catalog_name : Str
  node_id : Str
  schemas : List (Str × SchemaState)
deriving DecidableEq, Repr

/-- `RemoteCatalogProvider::schema_key`. -/
def CatalogState.schemaKey (c : CatalogState) (name : Str) : SchemaKey :=
  ⟨c.catalog_name, name, c.node_id⟩

/-- `RemoteCatalogProvider::schema`: confirm the schema key's remote
existence, then serve the local handle (which may be absent). -/
def CatalogState.schema (c : CatalogState) (b : Backend) (name : Str) :
    Except Error (Option SchemaState) :=
  match kvGet b (schemaKeyStr (c.schemaKey name)) with
  | none => .ok none
  | some _ => .ok (alGet c.schemas name)

/-- `RemoteCatalogProvider::register_schema`: read `prev` from the local map
(under the name) when the backend key already exists, write the marker
through, insert into the local map. -/
def CatalogState.register_schema (c : CatalogState) (b : Backend) (name : Str)
    (schema : SchemaState) :
    Except Error (Option SchemaState) × CatalogState × Backend :=
  let key := schemaKeyStr (c.schemaKey name)
  let prev :=
    match kvGet b key with
    | none => none
    | some _ => alGet c.schemas name
  let b1 := kvSet b key .schemaMarker
  (.ok prev, { c with schemas := alPut c.schemas name schema }, b1)

/-- Scan loop of `RemoteCatalogProvider::schema_names`: parse each key,
`assert_eq!` the catalog name against the provider's own, keep names whose
node identity equals the provider's. -/
def schemaNamesGo (c : CatalogState) :
    List (Str × BytesV) → List Str → PRes (List Str)
  | [], acc => .ok acc
  | (k, _) :: rest, acc =>
    match schemaKeyParse k with
    | .error e => .err e
    | .ok sk =>
      if c.catalog_name = sk.catalog_name then
        schemaNamesGo c rest
          (if sk.node_id = c.node_id then setInsert acc sk.schema_name else acc)
      else .panic

/-- `RemoteCatalogProvider::schema_names`. -/
def CatalogState.schema_names (c : CatalogState) (b : Backend) :
    PRes (List Str) :=
  schemaNamesGo c (kvRange b (buildSchemaPfx c.catalog_name)) []

/-- `table::requests::OpenTableRequest`. -/
structure OpenTableRequest where
  catalog_name : Str
  schema_name : Str
  table_name : Str
  table_id : Nat
deriving DecidableEq, Repr

/-- `table::requests::CreateTableRequest` (the fields `manager.rs` fills). -/
structure CreateTableRequest where
  id : Nat
  catalog_name : Option Str
  schema_name : Option Str
  table_name : Str
  desc : Option Str
  schemaDef : Str
  primaryKeyIndices : List Nat
  createIfNotExists : Bool
  tableOptions : List (Str × Str)
deriving DecidableEq, Repr

/-- Outcome of a fallible table-engine call. -/
inductive EngineRes (α : Type) where
  | ok (a : α)
  | err
deriving DecidableEq, Repr

/-- The table engine (external collaborator), as a deterministic oracle:
`open_table` may report "not found" (`ok none`) as a normal outcome. -/
structure TableEngine where
  openTable : OpenTableRequest → EngineRes (Option TableRef)
  createTable : CreateTableRequest → EngineRes TableRef

/-- `crate::RegisterTableRequest` (the fields `manager.rs` reads). -/
structure RegisterTableRequest where
  catalog : Option Str
  schema : Option Str
  table_name : Str
  table : TableRef

/-- Modelled from the spec: `DEFAULT_CATALOG_NAME` (defined in the crate
root, which is not under `src/`); the design document's bootstrap scenario
names it `default_catalog`. -/
def DEFAULT_CATALOG_NAME : Str := str "default_catalog"

/-- Modelled from the spec: `DEFAULT_SCHEMA_NAME`, `default_schema`. -/
def DEFAULT_SCHEMA_NAME : Str := str "default_schema"

/-- The table-id counter is an `AtomicU32`; arithmetic on it wraps at this
modulus. -/
def U32MOD : Nat := 4294967296

/-- State of a `RemoteCatalogManager`: node identity, the shared backend,
the catalog map, the table-id counter, the engine and the pending
system-table queue. -/
structure ManagerState where
  node_id : Str
  backend : Backend
  catalogs : List (Str × CatalogState)
  nextTableId : Nat
  engine : TableEngine
  systemTableRequests : List CreateTableRequest

/-- `RemoteCatalogManager::new`. -/
def managerNew (engine : TableEngine) (node_id : Str) (backend : Backend) :
    ManagerState :=
  { node_id, backend, catalogs := [], nextTableId := 0, engine,
    systemTableRequests := [] }

/-- `RemoteCatalogManager::new_catalog_provider`. -/
def newCatalogProvider (m : ManagerState) (catalog_name : Str) : CatalogState :=
  ⟨catalog_name, m.node_id, []⟩

/-- `RemoteCatalogManager::new_schema_provider`. -/
def newSchemaProvider (m : ManagerState) (catalog_name schema_name : Str) :
    SchemaState :=
  ⟨catalog_name, schema_name, m.node_id, []⟩

/-- `RemoteCatalogManager::open_or_create_table`: try the engine's open with
the identity decoded from the key/value pair; on "not found" fall back to a
create with `create_if_not_exists` set.  The open-failure context string
interpolates the literal `1` where the source's format says `id:`; the
create-failure context interpolates `table_value.id`. -/
def open_or_create_table (m : ManagerState) (tk : TableKey) (tv : TableValue) :
    Except Error TableRef :=
  let request : OpenTableRequest :=
    ⟨tk.catalog_name, tk.schema_name, tk.table_name, tv.id⟩
  match m.engine.openTable request with
  | .err =>
    .error (.OpenTableFailed
      (tk.catalog_name ++ str "." ++ tk.schema_name ++ str "." ++
        tk.table_name ++ str ", id:" ++ natToStr 1))
  | .ok (some table) => .ok table
  | .ok none =>
    let req : CreateTableRequest :=
      ⟨tv.id, some tk.catalog_name, some tk.schema_name, tk.table_name, none,
        tv.meta.schemaDef, tv.meta.primaryKeyIndices, true, tv.meta.options⟩
    match m.engine.createTable req with
    | .err =>
      .error (.CreateTableFailed
        (tk.catalog_name ++ str "." ++ tk.schema_name ++ str "." ++
          tk.table_name ++ str ", id:" ++ natToStr tv.id))
    | .ok table => .ok table

/-- `RemoteCatalogManager::initiate_default_catalog`: build fresh default
providers, register the default schema through the catalog provider (which
already writes the schema marker), then unconditionally write the default
schema and catalog markers.  The built catalog provider is returned (and
dropped by the caller). -/
def initiate_default_catalog (m : ManagerState) :
    Except Error (CatalogState × Backend) :=
  let default_catalog := newCatalogProvider m DEFAULT_CATALOG_NAME
  let default_schema :=
    newSchemaProvider m DEFAULT_CATALOG_NAME DEFAULT_SCHEMA_NAME
  match CatalogState.register_schema default_catalog m.backend
      DEFAULT_SCHEMA_NAME default_schema with
  | (.error e, _, _) => .error e
  | (.ok _, cat1, b1) =>
    let b2 := kvSet b1
      (schemaKeyStr ⟨DEFAULT_CATALOG_NAME, DEFAULT_SCHEMA_NAME, m.node_id⟩)
      .schemaMarker
    let b3 := kvSet b2
      (catalogKeyStr ⟨DEFAULT_CATALOG_NAME, m.node_id⟩) .catalogMarker
    .ok (cat1, b3)

/-- Innermost bootstrap loop (the table scan of `initiate_catalogs`): parse
each key/value, resolve via open-or-create, register into the schema
provider, fold the running maximum of observed table ids. -/
def initTablesLoop (m : ManagerState) :
    List (Str × BytesV) → SchemaState → Backend → Nat →
    Except Error (SchemaState × Backend × Nat)
  | [], s, b, maxId => .ok (s, b, maxId)
  | (k, v) :: rest, s, b, maxId =>
    match tableKeyParse k with
    | .error e => .error e
    | .ok tk =>
      match tableValueParse v with
      | .error e => .error e
      | .ok tv =>
        match open_or_create_table m tk tv with
        | .error e => .error e
        | .ok tref =>
          match SchemaState.register_table s b tk.table_name tref with
          | (.error e, _, _) => .error e
          | (.ok _, s1, b1) => initTablesLoop m rest s1 b1 (max maxId tv.id)

/-- Middle bootstrap loop (the schema scan of `initiate_catalogs`): for each
schema key, look the schema up through the catalog provider; when absent,
build and register a fresh schema provider; then run the table scan on a
fresh snapshot and write the final schema state back into the catalog
provider's map. -/
def initSchemasLoop (m : ManagerState) (catalog_name : Str) :
    List (Str × BytesV) → CatalogState → Backend → Nat →
    Except Error (CatalogState × Backend × Nat)
  | [], cat, b, maxId => .ok (cat, b, maxId)
  | (k, _) :: rest, cat, b, maxId =>
    match schemaKeyParse k with
    | .error e => .error e
    | .ok sk =>
      match CatalogState.schema cat b sk.schema_name with
      | .error e => .error e
      | .ok so =>
        let step :
            Except Error (SchemaState × CatalogState × Backend) :=
          match so with
          | some schema => .ok (schema, cat, b)
          | none =>
            let schema := newSchemaProvider m catalog_name sk.schema_name
            match CatalogState.register_schema cat b sk.schema_name schema with
            | (.error e, _, _) => .error e
            | (.ok _, cat1, b1) => .ok (schema, cat1, b1)
        match step with
        | .error e => .error e
        | .ok (schema, cat1, b1) =>
          match initTablesLoop m
              (kvRange b1 (buildTablePfx catalog_name sk.schema_name))
              schema b1 maxId with
          | .error e => .error e
          | .ok (schemaFinal, b2, maxId2) =>
            initSchemasLoop m catalog_name rest
              { cat1 with
                schemas := alPut cat1.schemas sk.schema_name schemaFinal }
              b2 maxId2

/-- Outer bootstrap loop (the catalog scan of `initiate_catalogs`): for each
catalog key, take the already-built provider from the result map or build a
fresh one, run the schema scan, write the provider back. -/
def initCatalogsLoop (m : ManagerState) :
    List (Str × BytesV) → List (Str × CatalogState) → Backend → Nat →
    Except Error (List (Str × CatalogState) × Backend × Nat)
  | [], res, b, maxId => .ok (res, b, maxId)
  | (k, _) :: rest, res, b, maxId =>
    match catalogKeyParse k with
    | .error e => .error e
    | .ok ck =>
      let cat :=
        match alGet res ck.catalog_name with
        | some c => c
        | none => newCatalogProvider m ck.catalog_name
      match initSchemasLoop m ck.catalog_name
          (kvRange b (buildSchemaPfx ck.catalog_name)) cat b maxId with
      | .error e => .error e
      | .ok (cat1, b1, maxId1) =>
        initCatalogsLoop m rest (alPut res ck.catalog_name cat1) b1 maxId1

/-- `RemoteCatalogManager::initiate_catalogs`: default-catalog
initialization, then the three nested range scans, returning the freshly
built catalog map, the final backend state and the maximum table id observed
(`TableId::MIN`, i.e. 0, when none). -/
def initiate_catalogs (m : ManagerState) :
    Except Error (List (Str × CatalogState) × Backend × Nat) :=
  match initiate_default_catalog m with
  | .error e => .error e
  | .ok (_, b) =>
    initCatalogsLoop m (kvRange b buildCatalogPfx) [] b 0

/-- `RemoteCatalogManager::next_table_id`: atomic fetch-and-increment,
returning the previous counter value; `AtomicU32` arithmetic wraps. -/
def managerNextTableId (m : ManagerState) : Nat × ManagerState :=
  (m.nextTableId, { m with nextTableId := (m.nextTableId + 1) % U32MOD })

/-- `CatalogList::catalog` for the manager: the backend decides existence,
the local map supplies the handle. -/
def managerCatalog (m : ManagerState) (name : Str) :
    Except Error (Option CatalogState) :=
  match kvGet m.backend (catalogKeyStr ⟨name, m.node_id⟩) with
  | none => .ok none
  | some _ => .ok (alGet m.catalogs name)

/-- Scan loop of `CatalogList::catalog_names`: parse each key and keep the
catalog names whose node identity equals the manager's. -/
def catalogNamesLoop (nid : Str) :
    List (Str × BytesV) → List Str → Except Error (List Str)
  | [], acc => .ok acc
  | (k, _) :: rest, acc =>
    match catalogKeyParse k with
    | .error e => .error e
    | .ok ck =>
      catalogNamesLoop nid rest
        (if ck.node_id = nid then setInsert acc ck.catalog_name else acc)

/-- `CatalogList::catalog_names`. -/
def managerCatalogNames (m : ManagerState) : Except Error (List Str) :=
  catalogNamesLoop m.node_id (kvRange m.backend buildCatalogPfx) []

/-- `CatalogManager::register_table` for the manager: resolve catalog and
schema (defaulting absent names), reject an existing table name with
`TableExists`, otherwise delegate to the schema provider's `register_table`
and return 1. -/
def managerRegisterTable (m : ManagerState) (request : RegisterTableRequest) :
    Except Error Nat × ManagerState :=
  let catalog_name := request.catalog.getD DEFAULT_CATALOG_NAME
  let schema_name := request.schema.getD DEFAULT_SCHEMA_NAME
  match managerCatalog m catalog_name with
  | .error e => (.error e, m)
  | .ok none => (.error (.CatalogNotFound catalog_name), m)
  | .ok (some cat) =>
    match CatalogState.schema cat m.backend schema_name with
    | .error e => (.error e, m)
    | .ok none =>
      (.error (.SchemaNotFound (catalog_name ++ str "." ++ schema_name)), m)
    | .ok (some sch) =>
      match SchemaState.table_exist sch m.backend request.table_name with
      | .error e => (.error e, m)
      | .ok true =>
        (.error (.TableExists
          (catalog_name ++ str "." ++ schema_name ++ str "." ++
            request.table_name)), m)
      | .ok false =>
        match SchemaState.register_table sch m.backend request.table_name
            request.table with
        | (.error e, _, _) => (.error e, m)
        | (.ok _, sch1, b1) =>
          let cat1 := { cat with schemas := alPut cat.schemas schema_name sch1 }
          (.ok 1,
            { m with backend := b1,
                     catalogs := alPut m.catalogs catalog_name cat1 })

/-- `CatalogManager::table` for the manager: pure read path; default absent
catalog/schema names, fail with the corresponding not-found error, then
delegate to the schema provider's lookup. -/
def managerTable (m : ManagerState) (catalog schema : Option Str)
    (table_name : Str) : Except Error (Option TableRef) :=
  let catalog_name := catalog.getD DEFAULT_CATALOG_NAME
  let schema_name := schema.getD DEFAULT_SCHEMA_NAME
  match managerCatalog m catalog_name with
  | .error e => .error e
  | .ok none => .error (.CatalogNotFound catalog_name)
  | .ok (some cat) =>
    match CatalogState.schema cat m.backend schema_name with
    | .error e => .error e
    | .ok none =>
      .error (.SchemaNotFound (catalog_name ++ str "." ++ schema_name))
    | .ok (some sch) => SchemaState.table sch m.backend table_name

/-- Modelled from the spec: drain loop of `handle_system_table_request`
(defined in the crate root, not under `src/`); each queued request is
materialized through the same open-or-create path and registered, in
submission order, any failure aborting. -/
def sysDrainLoop (macc : ManagerState) :
    List CreateTableRequest → Except Error ManagerState
  | [] => .ok macc
  | req :: rest =>
    let cname := req.catalog_name.getD DEFAULT_CATALOG_NAME
    let sname := req.schema_name.getD DEFAULT_SCHEMA_NAME
    let tk : TableKey := ⟨cname, sname, req.table_name, macc.node_id⟩
    let tv : TableValue :=
      ⟨req.id, ⟨req.schemaDef, req.primaryKeyIndices, req.tableOptions⟩⟩
    match open_or_create_table macc tk tv with
    | .error e => .error e
    | .ok tref =>
      match managerRegisterTable macc
          ⟨req.catalog_name, req.schema_name, req.table_name, tref⟩ with
      | (.error e, _) => .error e
      | (.ok _, m1) => sysDrainLoop m1 rest

/-- `CatalogManager::start`: run `initiate_catalogs`, atomically replace the
catalog map, store `max_table_id + 1` into the counter, then drain the
pending system-table queue. -/
def managerStart (m : ManagerState) : Except Error ManagerState :=
  match initiate_catalogs m with
  | .error e => .error e
  | .ok (catalogs, b, maxId) =>
    let m1 := { m with catalogs, backend := b,
                       nextTableId := (maxId + 1) % U32MOD,
                       systemTableRequests := [] }
    sysDrainLoop m1 m.systemTableRequests

/-- `CatalogManager::register_system_table`: purely enqueues. -/
def managerRegisterSystemTable (m : ManagerState) (req : CreateTableRequest) :
    Except Error Unit × ManagerState :=
  (.ok (), { m with systemTableRequests := m.systemTableRequests ++ [req] })

/-- Extracts the success payload of an `Except`, with a fallback. -/
def exGetD {ε α : Type} (x : Except ε α) (d : α) : α :=
  match x with
  | .ok a => a
  | .error _ => d

/-- Boolean success test for an `Except`. -/
def exIsOk {ε α : Type} : Except ε α → Bool
  | .ok _ => true
  | .error _ => false

/-- Boolean test that a list of naturals is strictly increasing. -/
def strictlyIncrB : List Nat → Bool
  | [] => true
  | [_] => true
  | a :: b :: rest => decide (a < b) && strictlyIncrB (b :: rest)

/-- The minimum representable table id (`TableId::MIN` for a `u32`). -/
def TableIdMIN : Nat := 0

/-- An engine oracle on which every open and every create fails. -/
def engineNoop : TableEngine := ⟨fun _ => .err, fun _ => .err⟩

/-- A concrete table-metadata payload used by the concrete scenarios. -/
def meta0 : TableMeta := ⟨str "colA", [0], []⟩

/-- A concrete table handle with id 7. -/
def handleA : TableRef := ⟨7, meta0, 1⟩

/-- A concrete table handle with id 8, distinct from `handleA`. -/
def handleB : TableRef := ⟨8, meta0, 2⟩

/-- `start()` on a manager with node id `n` over an empty backend. -/
def emptyStartRes : Except Error ManagerState :=
  managerStart (managerNew engineNoop (str "n") [])

/-- The manager state after the empty-backend `start()`. -/
def afterStartEmpty : ManagerState :=
  exGetD emptyStartRes (managerNew engineNoop (str "n") [])

/-- The default catalog provider materialized by the empty-backend
`start()`. -/
def defaultCatAfterEmpty : CatalogState :=
  (alGet afterStartEmpty.catalogs DEFAULT_CATALOG_NAME).getD ⟨[], [], []⟩

/-- The default schema provider materialized by the empty-backend
`start()`. -/
def defaultSchAfterEmpty : SchemaState :=
  (alGet defaultCatAfterEmpty.schemas DEFAULT_SCHEMA_NAME).getD ⟨[], [], [], []⟩

/-- C1, the claim as written fails at its last conjunct: the first
`next_table_id()` after an empty-backend `start()` returns 1, not the
minimum representable table id (0), because the counter is unconditionally
seeded `max_observed + 1` with the fold starting at `TableId::MIN`. -/
theorem C1_counterexample :
    (managerNextTableId afterStartEmpty).1 ≠ TableIdMIN := by
  decide

/-- C1 (amended): for a manager started against an empty KV backend,
`start()` succeeds, `catalog_names()` returns exactly the default catalog
name, `schema_names()` of the default catalog returns exactly the default
schema name, `table_names()` of the default schema returns the empty list,
and the first subsequent `next_table_id()` call returns the minimum
representable table id plus one. -/
theorem C1_amended :
    exIsOk emptyStartRes = true ∧
    managerCatalogNames afterStartEmpty = .ok [DEFAULT_CATALOG_NAME] ∧
    CatalogState.schema_names defaultCatAfterEmpty afterStartEmpty.backend =
      .ok [DEFAULT_SCHEMA_NAME] ∧
    SchemaState.table_names defaultSchAfterEmpty afterStartEmpty.backend =
      .ok [] ∧
    (managerNextTableId afterStartEmpty).1 = TableIdMIN + 1 :=
  ⟨rfl, rfl, rfl, rfl, rfl⟩

/-- The schema provider of the register/deregister scenarios: default
catalog and schema on node `n`, local map holding `t1 ↦ handleA`. -/
def sT1 : SchemaState :=
  ⟨DEFAULT_CATALOG_NAME, DEFAULT_SCHEMA_NAME, str "n", [(str "t1", handleA)]⟩

/-- The encoded key of table `t1` under `sT1`. -/
def keyT1 : Str := tableKeyStr (SchemaState.tableKey sT1 (str "t1"))

/-- A backend already holding the `t1` table key. -/
def bT1 : Backend := [(keyT1, .tableVal 7 meta0)]

/-- The result of re-registering `t1` (backend key present, local handle
present). -/
def regT1 : Except Error (Option TableRef) × SchemaState × Backend :=
  SchemaState.register_table sT1 bT1 (str "t1") handleB

/-- C2: at a state whose backend already holds the `t1` key and whose local
map holds `handleA` under `t1`, `register_table("t1", handleB)` does write
the handle-derived `TableValue` through and does insert `handleB` locally,
but returns `None` instead of the previously held `handleA`: the source
reads `prev` from the name-keyed local map under the full encoded key
string (`tables.get(&key)`), which can never match a bare table name. -/
theorem C2_code_bug_eval :
    alGet sT1.tables (str "t1") = some handleA ∧
    (kvGet bT1 keyT1).isSome = true ∧
    regT1.1 = .ok none ∧
    some handleA ≠ (none : Option TableRef) ∧
    alGet (regT1.2.1).tables (str "t1") = some handleB ∧
    kvGet regT1.2.2 keyT1 = some (.tableVal handleB.tableId handleB.meta) :=
  ⟨rfl, rfl, rfl, by simp, rfl, rfl⟩

/-- The result of deregistering `t1` from the same state. -/
def deregT1 : Except Error (Option TableRef) × SchemaState × Backend :=
  SchemaState.deregister_table sT1 bT1 (str "t1")

/-- A fresh manager started over the backend left by the deregistration. -/
def freshStartAfterDereg : Except Error ManagerState :=
  managerStart (managerNew engineNoop (str "n") deregT1.2.2)

/-- C3: `deregister_table("t1")` does delete the key from the backend (so
`table_exist` is false afterwards and a fresh `start()` does not rediscover
the table), but it removes from the name-keyed local map under the full
encoded key string (`tables.remove(&key)`): it returns `None` instead of
the removed `handleA` and leaves the `t1` entry in the local map. -/
theorem C3_code_bug_eval :
    alGet sT1.tables (str "t1") = some handleA ∧
    deregT1.1 = .ok none ∧
    kvGet deregT1.2.2 keyT1 = none ∧
    alGet (deregT1.2.1).tables (str "t1") = some handleA ∧
    SchemaState.table_exist deregT1.2.1 deregT1.2.2 (str "t1") = .ok false ∧
    exIsOk freshStartAfterDereg = true ∧
    managerTable (exGetD freshStartAfterDereg (managerNew engineNoop (str "n") []))
      none none (str "t1") = .ok none :=
  ⟨rfl, rfl, rfl, rfl, rfl, rfl, rfl⟩

/-- An engine oracle whose open reports "found nothing" and whose create
fails. -/
def engineCreateErr : TableEngine := ⟨fun _ => .ok none, fun _ => .err⟩

/-- The table key of the open-or-create failure scenario. -/
def tkT1 : TableKey :=
  ⟨DEFAULT_CATALOG_NAME, DEFAULT_SCHEMA_NAME, str "t1", str "n"⟩

/-- The table value (id 7) of the open-or-create failure scenario. -/
def tvT1 : TableValue := ⟨7, meta0⟩

/-- C4: for the table `default_catalog.default_schema.t1` with id 7, a
failing engine open produces `OpenTableFailed` whose context string carries
`id:1` — the source interpolates the literal `1`, not the table's id — while
a failing create produces `CreateTableFailed` carrying the true `id:7`. -/
theorem C4_code_bug_eval :
    open_or_create_table (managerNew engineNoop (str "n") []) tkT1 tvT1 =
      .error (.OpenTableFailed (str "default_catalog.default_schema.t1, id:1")) ∧
    str "default_catalog.default_schema.t1, id:1" ≠
      str "default_catalog.default_schema.t1, id:7" ∧
    tvT1.id = 7 ∧
    open_or_create_table (managerNew engineCreateErr (str "n") []) tkT1 tvT1 =
      .error (.CreateTableFailed (str "default_catalog.default_schema.t1, id:7")) :=
  ⟨rfl, by decide, rfl, rfl⟩

/-- A backend pre-populated with a single catalog key owned by a foreign
node (`other`, while the manager under test owns `n`). -/
def bForeign : Backend := [(str "__c-foreigncat-other", .catalogMarker)]

/-- `start()` of the node-`n` manager over the foreign-key backend. -/
def foreignStartRes : Except Error ManagerState :=
  managerStart (managerNew engineNoop (str "n") bForeign)

/-- The manager state after that `start()`. -/
def afterStartForeign : ManagerState :=
  exGetD foreignStartRes (managerNew engineNoop (str "n") [])

/-- C5, the claim as written is false: the bootstrap scan of `start()` does
not filter on node identity.  The only key naming `foreigncat` carries node
identity `other`, there is no `foreigncat` key for node `n`, yet after
`start()` the manager's in-memory catalog map holds a materialized catalog
provider for `foreigncat`. -/
theorem C5_counterexample :
    exIsOk foreignStartRes = true ∧
    catalogKeyParse (str "__c-foreigncat-other") =
      .ok ⟨str "foreigncat", str "other"⟩ ∧
    str "other" ≠ str "n" ∧
    kvGet bForeign (catalogKeyStr ⟨str "foreigncat", str "n"⟩) = none ∧
    alGet afterStartForeign.catalogs (str "foreigncat") =
      some ⟨str "foreigncat", str "n", []⟩ :=
  ⟨rfl, rfl, by decide, rfl, rfl⟩

/-- Membership in the de-duplicating accumulator. -/
theorem mem_setInsert {l : List Str} {s x : Str} (h : x ∈ setInsert l s) :
    x ∈ l ∨ x = s := by
  unfold setInsert at h
  by_cases hs : s ∈ l
  · rw [if_pos hs] at h
    exact .inl h
  · rw [if_neg hs] at h
    simpa using h

/-- Every name produced by the catalog-listing scan loop is in the
accumulator or comes from a scanned key that parses to that name under the
manager's own node identity. -/
theorem catalogNamesLoop_mem (nid : Str) :
    ∀ (entries : List (Str × BytesV)) (acc names : List Str) (x : Str),
      catalogNamesLoop nid entries acc = .ok names → x ∈ names →
      x ∈ acc ∨ ∃ kv ∈ entries, ∃ ck : CatalogKey,
        catalogKeyParse kv.1 = .ok ck ∧ ck.node_id = nid ∧
          ck.catalog_name = x := by
  intro entries
  induction entries with
  | nil =>
    intro acc names x h hx
    simp only [catalogNamesLoop] at h
    cases h
    exact .inl hx
  | cons kv rest ih =>
    intro acc names x h hx
    obtain ⟨k, v⟩ := kv
    simp only [catalogNamesLoop] at h
    cases hp : catalogKeyParse k with
    | error e => simp only [hp] at h; cases h
    | ok ck =>
      simp only [hp] at h
      by_cases hn : ck.node_id = nid
      · rw [if_pos hn] at h
        rcases ih _ _ _ h hx with hacc | ⟨kv1, hkv1, ck1, h1, h2, h3⟩
        · rcases mem_setInsert hacc with h4 | h4
          · exact .inl h4
          · exact .inr ⟨(k, v), List.mem_cons_self _ _, ck, hp, hn, h4.symm⟩
        · exact .inr ⟨kv1, List.mem_cons_of_mem _ hkv1, ck1, h1, h2, h3⟩
      · rw [if_neg hn] at h
        rcases ih _ _ _ h hx with hacc | ⟨kv1, hkv1, ck1, h1, h2, h3⟩
        · exact .inl hacc
        · exact .inr ⟨kv1, List.mem_cons_of_mem _ hkv1, ck1, h1, h2, h3⟩

/-- Same membership property for the schema-listing scan loop. -/
theorem schemaNamesGo_mem (c : CatalogState) :
    ∀ (entries : List (Str × BytesV)) (acc names : List Str) (x : Str),
      schemaNamesGo c entries acc = .ok names → x ∈ names →
      x ∈ acc ∨ ∃ kv ∈ entries, ∃ sk : SchemaKey,
        schemaKeyParse kv.1 = .ok sk ∧ sk.node_id = c.node_id ∧
          sk.schema_name = x := by
  intro entries
  induction entries with
  | nil =>
    intro acc names x h hx
    simp only [schemaNamesGo] at h
    cases h
    exact .inl hx
  | cons kv rest ih =>
    intro acc names x h hx
    obtain ⟨k, v⟩ := kv
    simp only [schemaNamesGo] at h
    cases hp : schemaKeyParse k with
    | error e => simp only [hp] at h; cases h
    | ok sk =>
      simp only [hp] at h
      by_cases hcat : c.catalog_name = sk.catalog_name
      · rw [if_pos hcat] at h
        by_cases hn : sk.node_id = c.node_id
        · rw [if_pos hn] at h
          rcases ih _ _ _ h hx with hacc | ⟨kv1, hkv1, sk1, h1, h2, h3⟩
          · rcases mem_setInsert hacc with h4 | h4
            · exact .inl h4
            · exact .inr ⟨(k, v), List.mem_cons_self _ _, sk, hp, hn, h4.symm⟩
          · exact .inr ⟨kv1, List.mem_cons_of_mem _ hkv1, sk1, h1, h2, h3⟩
        · rw [if_neg hn] at h
          rcases ih _ _ _ h hx with hacc | ⟨kv1, hkv1, sk1, h1, h2, h3⟩
          · exact .inl hacc
          · exact .inr ⟨kv1, List.mem_cons_of_mem _ hkv1, sk1, h1, h2, h3⟩
      · rw [if_neg hcat] at h
        cases h

/-- Same membership property for the table-listing scan loop. -/
theorem tableNamesGo_mem (s : SchemaState) :
    ∀ (entries : List (Str × BytesV)) (acc names : List Str) (x : Str),
      tableNamesGo s entries acc = .ok names → x ∈ names →
      x ∈ acc ∨ ∃ kv ∈ entries, ∃ tk : TableKey,
        tableKeyParse kv.1 = .ok tk ∧ tk.node_id = s.node_id ∧
          tk.table_name = x := by
  intro entries
  induction entries with
  | nil =>
    intro acc names x h hx
    simp only [tableNamesGo] at h
    cases h
    exact .inl hx
  | cons kv rest ih =>
    intro acc names x h hx
    obtain ⟨k, v⟩ := kv
    simp only [tableNamesGo] at h
    cases hp : tableKeyParse k with
    | error e => simp only [hp] at h; cases h
    | ok tk =>
      simp only [hp] at h
      by_cases hsch : s.schema_name = tk.schema_name
      · rw [if_pos hsch] at h
        by_cases hcat : s.catalog_name = tk.catalog_name
        · rw [if_pos hcat] at h
          by_cases hn : tk.node_id = s.node_id
          · rw [if_pos hn] at h
            rcases ih _ _ _ h hx with hacc | ⟨kv1, hkv1, tk1, h1, h2, h3⟩
            · rcases mem_setInsert hacc with h4 | h4
              · exact .inl h4
              · exact .inr ⟨(k, v), List.mem_cons_self _ _, tk, hp, hn, h4.symm⟩
            · exact .inr ⟨kv1, List.mem_cons_of_mem _ hkv1, tk1, h1, h2, h3⟩
          · rw [if_neg hn] at h
            rcases ih _ _ _ h hx with hacc | ⟨kv1, hkv1, tk1, h1, h2, h3⟩
            · exact .inl hacc
            · exact .inr ⟨kv1, List.mem_cons_of_mem _ hkv1, tk1, h1, h2, h3⟩
        · rw [if_neg hcat] at h
          cases h
      · rw [if_neg hsch] at h
        cases h

/-- C5 (amended): the name-listing operations do filter on node identity —
every name returned by `catalog_names()`, `schema_names()` or
`table_names()` originates from a scanned key that parses back to that name
under the caller's own node identity — but `start()`'s bootstrap scan does
not: it materializes in-memory caches from well-formed keys regardless of
the node identity they carry (witnessed by the `foreigncat` provider
materialized from a key of node `other`). -/
theorem C5_amended :
    (∀ (m : ManagerState) (names : List Str) (x : Str),
      managerCatalogNames m = .ok names → x ∈ names →
      ∃ kv ∈ kvRange m.backend buildCatalogPfx, ∃ ck : CatalogKey,
        catalogKeyParse kv.1 = .ok ck ∧ ck.node_id = m.node_id ∧
          ck.catalog_name = x) ∧
    (∀ (c : CatalogState) (b : Backend) (names : List Str) (x : Str),
      CatalogState.schema_names c b = .ok names → x ∈ names →
      ∃ kv ∈ kvRange b (buildSchemaPfx c.catalog_name), ∃ sk : SchemaKey,
        schemaKeyParse kv.1 = .ok sk ∧ sk.node_id = c.node_id ∧
          sk.schema_name = x) ∧
    (∀ (s : SchemaState) (b : Backend) (names : List Str) (x : Str),
      SchemaState.table_names s b = .ok names → x ∈ names →
      ∃ kv ∈ kvRange b (buildTablePfx s.catalog_name s.schema_name),
        ∃ tk : TableKey, tableKeyParse kv.1 = .ok tk ∧
          tk.node_id = s.node_id ∧ tk.table_name = x) ∧
    alGet afterStartForeign.catalogs (str "foreigncat") =
      some ⟨str "foreigncat", str "n", []⟩ := by
  refine ⟨?_, ?_, ?_, rfl⟩
  · intro m names x h hx
    rcases catalogNamesLoop_mem m.node_id _ _ _ _ h hx with hacc | hex
    · cases hacc
    · exact hex
  · intro c b names x h hx
    rcases schemaNamesGo_mem c _ _ _ _ h hx with hacc | hex
    · cases hacc
    · exact hex
  · intro s b names x h hx
    rcases tableNamesGo_mem s _ _ _ _ h hx with hacc | hex
    · cases hacc
    · exact hex

/-- Closed instantiation of `C5_amended`: the default catalog name listed by
`catalog_names()` after the foreign-key `start()` does come from a key owned
by node `n`. -/
theorem C5_amended_witness :
    ∃ kv ∈ kvRange afterStartForeign.backend buildCatalogPfx,
      ∃ ck : CatalogKey, catalogKeyParse kv.1 = .ok ck ∧
        ck.node_id = afterStartForeign.node_id ∧
        ck.catalog_name = DEFAULT_CATALOG_NAME :=
  C5_amended.1 afterStartForeign [DEFAULT_CATALOG_NAME] DEFAULT_CATALOG_NAME
    rfl (by decide)

/-- C6: whenever the resolved schema already reports the table name present
(`table_exist` is true), the manager-level `register_table` fails with
`TableExists` carrying the fully qualified name, and the returned state is
the unchanged input state: no backend write happens and the local maps (and
hence the existing handle) are untouched. -/
theorem C6_duplicate_rejection (m : ManagerState)
    (request : RegisterTableRequest) (cat : CatalogState) (sch : SchemaState)
    (hc : managerCatalog m (request.catalog.getD DEFAULT_CATALOG_NAME) =
      .ok (some cat))
    (hs : CatalogState.schema cat m.backend
      (request.schema.getD DEFAULT_SCHEMA_NAME) = .ok (some sch))
    (ht : SchemaState.table_exist sch m.backend request.table_name =
      .ok true) :
    managerRegisterTable m request =
      (.error (.TableExists
        ((request.catalog.getD DEFAULT_CATALOG_NAME) ++ str "." ++
         (request.schema.getD DEFAULT_SCHEMA_NAME) ++ str "." ++
         request.table_name)), m) := by
  simp only [managerRegisterTable, hc, hs, ht]

/-- A backend for the duplicate-rejection and lookup scenarios: default
catalog and schema markers plus the `t1` table key, all for node `n`. -/
def bFull : Backend :=
  [(catalogKeyStr ⟨DEFAULT_CATALOG_NAME, str "n"⟩, .catalogMarker),
   (schemaKeyStr ⟨DEFAULT_CATALOG_NAME, DEFAULT_SCHEMA_NAME, str "n"⟩,
     .schemaMarker),
   (keyT1, .tableVal 7 meta0)]

/-- A catalog provider holding `sT1` as its default schema. -/
def catFull : CatalogState :=
  ⟨DEFAULT_CATALOG_NAME, str "n", [(DEFAULT_SCHEMA_NAME, sT1)]⟩

/-- A fully resolved manager over `bFull`. -/
def mFull : ManagerState :=
  ⟨str "n", bFull, [(DEFAULT_CATALOG_NAME, catFull)], 5, engineNoop, []⟩

/-- Closed instantiation of `C6_duplicate_rejection`: re-registering `t1`
under the default catalog and schema is rejected and leaves the state
unchanged. -/
theorem C6_witness :
    managerRegisterTable mFull ⟨none, none, str "t1", handleB⟩ =
      (.error (.TableExists
        (DEFAULT_CATALOG_NAME ++ str "." ++ DEFAULT_SCHEMA_NAME ++ str "." ++
          str "t1")), mFull) :=
  C6_duplicate_rejection mFull ⟨none, none, str "t1", handleB⟩ catFull sT1
    rfl rfl rfl

/-- C7: `table(catalog, schema, name)` fails with `CatalogNotFound` when the
catalog key is absent from the backend; fails with `SchemaNotFound` when the
catalog resolves but the schema key is absent; and absent catalog/schema
arguments default to the default catalog and default schema names. -/
theorem C7_not_found :
    (∀ (m : ManagerState) (c s name : Str),
      kvGet m.backend (catalogKeyStr ⟨c, m.node_id⟩) = none →
      managerTable m (some c) (some s) name = .error (.CatalogNotFound c)) ∧
    (∀ (m : ManagerState) (c s name : Str) (cat : CatalogState),
      managerCatalog m c = .ok (some cat) →
      kvGet m.backend (schemaKeyStr (CatalogState.schemaKey cat s)) = none →
      managerTable m (some c) (some s) name =
        .error (.SchemaNotFound (c ++ str "." ++ s))) ∧
    (∀ (m : ManagerState) (name : Str),
      managerTable m none none name =
        managerTable m (some DEFAULT_CATALOG_NAME)
          (some DEFAULT_SCHEMA_NAME) name) := by
  refine ⟨?_, ?_, ?_⟩
  · intro m c s name h
    simp only [managerTable, managerCatalog, Option.getD, h]
  · intro m c s name cat hc h
    simp only [managerTable, Option.getD, hc, CatalogState.schema, h]
  · intro m name
    rfl

/-- Closed instantiation of `C7_not_found`: over `mFull`, a missing catalog
yields `CatalogNotFound` and a missing schema under the (present) default
catalog yields `SchemaNotFound`. -/
theorem C7_witness :
    managerTable mFull (some (str "missing")) (some (str "x")) (str "t1") =
      .error (.CatalogNotFound (str "missing")) ∧
    managerTable mFull (some DEFAULT_CATALOG_NAME) (some (str "missing"))
      (str "t1") =
      .error (.SchemaNotFound (DEFAULT_CATALOG_NAME ++ str "." ++
        str "missing")) :=
  ⟨C7_not_found.1 mFull (str "missing") (str "x") (str "t1") rfl,
   C7_not_found.2.1 mFull DEFAULT_CATALOG_NAME (str "missing") (str "t1")
     catFull rfl rfl⟩

/-- Looking up the key just written finds the written value. -/
theorem alGet_alPut_self {α : Type} (l : List (Str × α)) (k : Str) (v : α) :
    alGet (alPut l k v) k = some v := by
  induction l with
  | nil => simp [alPut, alGet]
  | cons hd tl ih =>
    obtain ⟨hk, hv⟩ := hd
    by_cases h : hk = k
    · simp [alPut, alGet, h]
    · simp [alPut, alGet, h, ih]

/-- C8: immediately after a successful schema-level
`register_table(name, handle)` (the write-through is unconditional, so the
call always succeeds against a live backend), `table_exist(name)` is true
and `table(name)` returns exactly the registered handle. -/
theorem C8_write_then_read (s : SchemaState) (b : Backend) (name : Str)
    (t : TableRef) :
    exIsOk (SchemaState.register_table s b name t).1 = true ∧
    SchemaState.table_exist (SchemaState.register_table s b name t).2.1
      (SchemaState.register_table s b name t).2.2 name = .ok true ∧
    SchemaState.table (SchemaState.register_table s b name t).2.1
      (SchemaState.register_table s b name t).2.2 name = .ok (some t) := by
  refine ⟨rfl, ?_, ?_⟩
  · simp [SchemaState.register_table, SchemaState.table_exist, kvGet, kvSet,
      SchemaState.tableKey, alGet_alPut_self]
  · simp [SchemaState.register_table, SchemaState.table, kvGet, kvSet,
      SchemaState.tableKey, alGet_alPut_self]

/-- The values returned by `k` consecutive `next_table_id()` calls from a
given state. -/
def allocSeq : ManagerState → Nat → List Nat
  | _, 0 => []
  | m, k + 1 =>
    (managerNextTableId m).1 :: allocSeq (managerNextTableId m).2 k

/-- Every value returned by a wrap-free run of the allocator is at least the
starting counter value. -/
theorem allocSeq_lower :
    ∀ (k : Nat) (m : ManagerState), m.nextTableId + k ≤ U32MOD →
      ∀ x ∈ allocSeq m k, m.nextTableId ≤ x := by
  intro k
  induction k with
  | zero =>
    intro m h x hx
    simp [allocSeq] at hx
  | succ k ih =>
    intro m h x hx
    simp only [allocSeq, managerNextTableId] at hx
    rcases List.mem_cons.mp hx with rfl | hx1
    · exact Nat.le_refl _
    · cases k with
      | zero => simp [allocSeq] at hx1
      | succ k1 =>
        have hlt : m.nextTableId + 1 < U32MOD := by omega
        have hmod : (m.nextTableId + 1) % U32MOD = m.nextTableId + 1 :=
          Nat.mod_eq_of_lt hlt
        have hle := ih { m with nextTableId := (m.nextTableId + 1) % U32MOD }
          (by show (m.nextTableId + 1) % U32MOD + (k1 + 1) ≤ U32MOD
              rw [hmod]; omega) x hx1
        have hle1 : (m.nextTableId + 1) % U32MOD ≤ x := hle
        rw [hmod] at hle1
        omega

/-- C9 (amended): the values returned by consecutive `next_table_id()` calls
within one process lifetime are strictly increasing and pairwise distinct as
long as the 32-bit counter does not wrap, i.e. as long as the starting
counter value plus the number of calls stays within `2^32`. -/
theorem C9_amended :
    ∀ (k : Nat) (m : ManagerState), m.nextTableId + k ≤ U32MOD →
      List.Pairwise (fun a b => a < b) (allocSeq m k) := by
  intro k
  induction k with
  | zero =>
    intro m h
    simp [allocSeq]
  | succ k ih =>
    intro m h
    cases k with
    | zero =>
      simp [allocSeq]
    | succ k1 =>
      have hlt : m.nextTableId + 1 < U32MOD := by omega
      have hmod : (m.nextTableId + 1) % U32MOD = m.nextTableId + 1 :=
        Nat.mod_eq_of_lt hlt
      have hstep : allocSeq m (k1 + 1 + 1) =
          m.nextTableId ::
            allocSeq { m with nextTableId := (m.nextTableId + 1) % U32MOD }
              (k1 + 1) := rfl
      rw [hstep]
      refine List.Pairwise.cons ?_ ?_
      · intro x hx
        have hle := allocSeq_lower (k1 + 1)
          { m with nextTableId := (m.nextTableId + 1) % U32MOD }
          (by show (m.nextTableId + 1) % U32MOD + (k1 + 1) ≤ U32MOD
              rw [hmod]; omega) x hx
        have hle1 : (m.nextTableId + 1) % U32MOD ≤ x := hle
        rw [hmod] at hle1
        omega
      · refine ih _ ?_
        show (m.nextTableId + 1) % U32MOD + (k1 + 1) ≤ U32MOD
        rw [hmod]; omega

/-- Closed instantiation of `C9_amended`: three allocations from a fresh
manager are strictly increasing. -/
theorem C9_amended_witness :
    List.Pairwise (fun a b => a < b)
      (allocSeq (managerNew engineNoop (str "n") []) 3) :=
  C9_amended 3 (managerNew engineNoop (str "n") []) (by decide)

/-- An engine oracle whose open always finds a table with the requested id. -/
def engineOpenOk : TableEngine :=
  ⟨fun r => .ok (some ⟨r.table_id, meta0, 0⟩), fun _ => .err⟩

/-- A backend holding one table row with id `2^32 - 2`. -/
def bBig : Backend :=
  [(str "__t-default_catalog-default_schema-t1-n", .tableVal 4294967294 meta0)]

/-- `start()` over `bBig`; it seeds the counter with `2^32 - 1`. -/
def bigStartRes : Except Error ManagerState :=
  managerStart (managerNew engineOpenOk (str "n") bBig)

/-- The manager state after that `start()`. -/
def afterStartBig : ManagerState :=
  exGetD bigStartRes (managerNew engineOpenOk (str "n") [])

/-- C9, the claim as written fails on the code: from the reachable state
whose bootstrap observed the table id `2^32 - 2`, the counter holds
`2^32 - 1` and the `AtomicU32` fetch-and-add wraps, so the very next two
`next_table_id()` calls return `2^32 - 1` and then `0` — not strictly
increasing. -/
theorem C9_counterexample :
    exIsOk bigStartRes = true ∧
    allocSeq afterStartBig 2 = [4294967295, 0] ∧
    strictlyIncrB (allocSeq afterStartBig 2) = false ∧
    ¬ List.Pairwise (fun a b => a < b) (allocSeq afterStartBig 2) := by
  refine ⟨rfl, rfl, rfl, ?_⟩
  intro hp
  rw [show allocSeq afterStartBig 2 = [4294967295, 0] from rfl] at hp
  have h1 := (List.pairwise_cons.mp hp).1 0 (by simp)
  omega

/-- The scan loop of `schema_names` never panics when every scanned key that
parses at all parses back to the provider's own catalog name. -/
theorem schemaNamesGo_no_panic (c : CatalogState) :
    ∀ (entries : List (Str × BytesV)) (acc : List Str),
      (∀ kv ∈ entries, ∀ sk : SchemaKey,
        schemaKeyParse kv.1 = .ok sk → sk.catalog_name = c.catalog_name) →
      schemaNamesGo c entries acc ≠ .panic := by
  intro entries
  induction entries with
  | nil =>
    intro acc _ heq
    exact PRes.noConfusion heq
  | cons kv rest ih =>
    intro acc hpre
    obtain ⟨k, v⟩ := kv
    simp only [schemaNamesGo]
    cases hp : schemaKeyParse k with
    | error e =>
      intro heq
      exact PRes.noConfusion heq
    | ok sk =>
      have hcat : sk.catalog_name = c.catalog_name :=
        hpre (k, v) (List.mem_cons_self _ _) sk hp
      show (if c.catalog_name = sk.catalog_name then
              schemaNamesGo c rest
                (if sk.node_id = c.node_id then setInsert acc sk.schema_name
                 else acc)
            else PRes.panic) ≠ PRes.panic
      rw [if_pos hcat.symm]
      exact ih _ (fun kv1 h1 sk1 h2 => hpre kv1 (List.mem_cons_of_mem _ h1) sk1 h2)

/-- The scan loop of `table_names` never panics when every scanned key that
parses at all parses back to the provider's own schema and catalog names. -/
theorem tableNamesGo_no_panic (s : SchemaState) :
    ∀ (entries : List (Str × BytesV)) (acc : List Str),
      (∀ kv ∈ entries, ∀ tk : TableKey,
        tableKeyParse kv.1 = .ok tk →
          tk.schema_name = s.schema_name ∧ tk.catalog_name = s.catalog_name) →
      tableNamesGo s entries acc ≠ .panic := by
  intro entries
  induction entries with
  | nil =>
    intro acc _ heq
    exact PRes.noConfusion heq
  | cons kv rest ih =>
    intro acc hpre
    obtain ⟨k, v⟩ := kv
    simp only [tableNamesGo]
    cases hp : tableKeyParse k with
    | error e =>
      intro heq
      exact PRes.noConfusion heq
    | ok tk =>
      have hok := hpre (k, v) (List.mem_cons_self _ _) tk hp
      show (if s.schema_name = tk.schema_name then
              if s.catalog_name = tk.catalog_name then
                tableNamesGo s rest
                  (if tk.node_id = s.node_id then setInsert acc tk.table_name
                   else acc)
              else PRes.panic
            else PRes.panic) ≠ PRes.panic
      rw [if_pos hok.1.symm, if_pos hok.2.symm]
      exact ih _ (fun kv1 h1 tk1 h2 => hpre kv1 (List.mem_cons_of_mem _ h1) tk1 h2)

/-- A catalog provider whose own catalog name contains the key delimiter. -/
def catDashed : CatalogState := ⟨str "a-b", str "n", []⟩

/-- A backend whose single schema key falls inside `catDashed`'s scan range
but parses back to the catalog name `a`. -/
def bMismatchS : Backend := [(str "__s-a-b-n", .schemaMarker)]

/-- A schema provider whose own schema name contains the key delimiter. -/
def schDashed : SchemaState := ⟨str "c", str "s-x", str "n", []⟩

/-- A backend whose single table key falls inside `schDashed`'s scan range
but parses back to the schema name `s`. -/
def bMismatchT : Backend := [(str "__t-c-s-x-n", .tableVal 1 meta0)]

/-- C10: when a range scan of `schema_names()` (resp. `table_names()`)
yields a well-formed key whose parsed catalog (resp. schema) name differs
from the provider's own, the operation panics via the failed `assert_eq!`
rather than returning `KeyDecodeError` or any other error value; and under
the precondition that every scanned key parses back to matching catalog and
schema names, the assertions never fail. -/
theorem C10_assert_behavior :
    (∀ (c : CatalogState) (b : Backend),
      (∀ kv ∈ kvRange b (buildSchemaPfx c.catalog_name), ∀ sk : SchemaKey,
        schemaKeyParse kv.1 = .ok sk → sk.catalog_name = c.catalog_name) →
      CatalogState.schema_names c b ≠ .panic) ∧
    (∀ (s : SchemaState) (b : Backend),
      (∀ kv ∈ kvRange b (buildTablePfx s.catalog_name s.schema_name),
        ∀ tk : TableKey, tableKeyParse kv.1 = .ok tk →
          tk.schema_name = s.schema_name ∧ tk.catalog_name = s.catalog_name) →
      SchemaState.table_names s b ≠ .panic) ∧
    CatalogState.schema_names catDashed bMismatchS = .panic ∧
    schemaKeyParse (str "__s-a-b-n") = .ok ⟨str "a", str "b", str "n"⟩ ∧
    str "a" ≠ str "a-b" ∧
    SchemaState.table_names schDashed bMismatchT = .panic ∧
    tableKeyParse (str "__t-c-s-x-n") =
      .ok ⟨str "c", str "s", str "x", str "n"⟩ ∧
    str "s" ≠ str "s-x" := by
  refine ⟨?_, ?_, rfl, rfl, by decide, rfl, rfl, by decide⟩
  · intro c b hpre
    exact schemaNamesGo_no_panic c _ _ hpre
  · intro s b hpre
    exact tableNamesGo_no_panic s _ _ hpre

/-- Closed instantiation of `C10_assert_behavior`: over an empty backend the
listing operations cannot panic. -/
theorem C10_witness :
    CatalogState.schema_names catFull [] ≠ .panic ∧
    SchemaState.table_names sT1 [] ≠ .panic :=
  ⟨C10_assert_behavior.1 catFull [] (by intro kv h; simp [kvRange] at h),
   C10_assert_behavior.2.1 sT1 [] (by intro kv h; simp [kvRange] at h)⟩

end RemoteCatalog
